import Mathlib

/-!
Verification development for the `llm_consortium` orchestration engine
(`src/build/lib/llm_consortium/__init__.py`).

The Python source is shallowly embedded:
* Python `float` values carrying confidences are modelled as `ℚ` (every
  numeric literal the parsers produce is a decimal fraction, and the only
  operations are comparison against `1` and division by `100`, on which the
  rational and the IEEE-double semantics agree for the properties below);
* Python dicts with a fixed key set (`SynthesisResult`, worker-response
  records, the config) are modelled as structures;
* network collaborators (`llm.get_model(...).prompt`, the arbiter call)
  are modelled as oracle parameters;
* a Python function falling off its end (returning `None`) or raising is
  modelled with `Option` / `Except`.

String scanning mirrors the `re` patterns of the source at the character
level; comments on each definition name the pattern it implements and
justify where greedy matching without backtracking coincides with the
backtracking semantics of the Python `re` engine.
-/

/- `Rat`'s arithmetic is `@[irreducible]` by default, which blocks kernel
evaluation of concrete runs via `decide`; restore the definitional
unfolding for this file. -/
attribute [local semireducible] Rat.mul Rat.inv Rat.add Rat.sub Rat.ofScientific

/-! ### Character-level helpers shared by the embedded regex scanners -/

/-- Python `\s` on ASCII input: space, tab, newline, carriage return,
form feed, vertical tab. -/
def pySpace (c : Char) : Bool :=
  c = ' ' || c = '\t' || c = '\n' || c = '\x0d' || c = '\x0c' || c = '\x0b'

/-- Drop a maximal run of `\s` characters (`\s*`).  In every pattern below
the token following `\s*` can never match a whitespace character, so the
maximal munch agrees with the backtracking `re` semantics. -/
def dropWS : List Char → List Char
  | [] => []
  | c :: cs => if pySpace c then dropWS cs else c :: cs

/-- Maximal run of ASCII digits: returns `(digits, rest)`. -/
def takeDigits : List Char → List Char × List Char
  | [] => ([], [])
  | c :: cs =>
    if c.isDigit then
      let (ds, rest) := takeDigits cs
      (c :: ds, rest)
    else ([], c :: cs)

/-- Case-insensitive literal match (the `re.IGNORECASE` flag): `pat` is
given lowercase; on success returns the rest of the input. -/
def matchCI : List Char → List Char → Option (List Char)
  | [], s => some s
  | _ :: _, [] => none
  | p :: ps, c :: cs => if c.toLower = p then matchCI ps cs else none

/-- Case-sensitive literal match (patterns compiled without flags). -/
def matchCS : List Char → List Char → Option (List Char)
  | [], s => some s
  | _ :: _, [] => none
  | p :: ps, c :: cs => if c = p then matchCS ps cs else none

/-- Numeric value of a digit character. -/
def digitVal (c : Char) : Nat := c.toNat - 48

/-- `int`/`float` value of a digit run, e.g. `float("090") = 90`. -/
def natOfDigits (ds : List Char) : Nat :=
  ds.foldl (fun n c => 10 * n + digitVal c) 0

/-- `float("0." ++ ds)`: the fractional value of a digit run. -/
def fracOfDigits (ds : List Char) : ℚ :=
  (natOfDigits ds : ℚ) / (10 ^ ds.length)

/-! ### `_parse_confidence_value` (source lines 343-365)

Structured-tag pass: `re.search(r"<confidence>\s*(0?\.?\d+|1\.0|\d+)\s*</confidence>",
text, re.IGNORECASE | re.DOTALL)`.  The group alternation is tried with the
backtracking order of the `re` engine: within `0?\.?\d+` the optional `0`
and `.` are tried greedily first, giving the candidate order
`0.d⁺`, `0d⁺`, `.d⁺`, `d⁺`; then the alternative `1\.0`; the final
alternative `\d+` duplicates the fourth candidate.  `\d+` is taken
maximally: a shorter digit run leaves a digit as the next character, which
can satisfy neither `\s*` nor `</confidence>`, so the engine's backtracking
over the run length never succeeds and maximal munch is faithful. -/

/-- Does `\s*</confidence>` match a prefix of `s`? (the part of the
pattern after the capture group). -/
def confCloseOK (s : List Char) : Bool :=
  (matchCI "</confidence>".data (dropWS s)).isSome

/-- Candidate `0\.\d+` of the group (matched text `0.ds`, value `0.ds`). -/
def confCand1 : List Char → Option ℚ
  | '0' :: '.' :: rest =>
    let (ds, s3) := takeDigits rest
    if ds ≠ [] ∧ confCloseOK s3 then some (fracOfDigits ds) else none
  | _ => none

/-- Candidate `0\d+` (matched text `0ds`, value `float("0" ++ ds)`). -/
def confCand2 : List Char → Option ℚ
  | '0' :: rest =>
    let (ds, s3) := takeDigits rest
    if ds ≠ [] ∧ confCloseOK s3 then some ((natOfDigits ds : ℚ)) else none
  | _ => none

/-- Candidate `\.\d+` (matched text `.ds`). -/
def confCand3 : List Char → Option ℚ
  | '.' :: rest =>
    let (ds, s3) := takeDigits rest
    if ds ≠ [] ∧ confCloseOK s3 then some (fracOfDigits ds) else none
  | _ => none

/-- Candidate `\d+` (also covers the final `\d+` alternative). -/
def confCand4 (s : List Char) : Option ℚ :=
  let (ds, s3) := takeDigits s
  if ds ≠ [] ∧ confCloseOK s3 then some ((natOfDigits ds : ℚ)) else none

/-- Alternative `1\.0` of the group. -/
def confCand5 : List Char → Option ℚ
  | '1' :: '.' :: '0' :: s3 => if confCloseOK s3 then some 1 else none
  | _ => none

/-- Attempt the whole pattern at the current position: literal
`<confidence>` (case-insensitive), `\s*`, the group, `\s*</confidence>`. -/
def tryConfAt (s : List Char) : Option ℚ :=
  match matchCI "<confidence>".data s with
  | none => none
  | some s1 =>
    let s2 := dropWS s1
    (confCand1 s2).orElse fun _ =>
    (confCand2 s2).orElse fun _ =>
    (confCand3 s2).orElse fun _ =>
    (confCand4 s2).orElse fun _ =>
    confCand5 s2

/-- `re.search`: try the pattern at each successive start position. -/
def searchConfXML : List Char → Option ℚ
  | [] => none
  | c :: cs => (tryConfAt (c :: cs)).orElse fun _ => searchConfXML cs

/-! Fallback pass of `_parse_confidence_value`: iterate over
`text.lower().split("\n")`; on a line containing `"confidence:"` or
`"confidence level:"`, take the first match of `(\d*\.?\d+)%?` via
`re.findall`; `float` of that token cannot raise, so the `except` branch
is dead and the first keyword line bearing a number returns. -/

/-- Split a character list at every occurrence of `sep`
(Python `str.split(sep)` for a one-character separator). -/
def splitSep (sep : Char) : List Char → List (List Char)
  | [] => [[]]
  | c :: cs =>
    if c = sep then [] :: splitSep sep cs
    else
      match splitSep sep cs with
      | [] => [[c]]
      | l :: ls => (c :: l) :: ls

/-- `"\n"`-split of a character list (Python `str.split("\n")`). -/
def splitNL : List Char → List (List Char) := splitSep '\n'

/-- Python substring containment `needle in hay`. -/
def containsSub (needle : List Char) : List Char → Bool
  | [] => (matchCS needle []).isSome
  | c :: cs => (matchCS needle (c :: cs)).isSome || containsSub needle cs

/-- Leftmost match of `\d*\.?\d+` and its `float` value.  At the leftmost
feasible position the backtracking engine yields: the full digit run `D`,
extended by `.F` when a dot and at least one further digit follow
(otherwise `\d*` backtracks one digit so that `\d+` can consume the last
digit of `D`, producing the same matched value `D`).  `numTokenValAt`
computes the value at a position starting with a digit; `findNumToken`
scans for the leftmost feasible position. -/
def numTokenValAt (s : List Char) : ℚ :=
  let p := takeDigits s
  match p.2 with
  | '.' :: rest2 =>
    let q := takeDigits rest2
    if q.1 ≠ [] then (natOfDigits p.1 : ℚ) + fracOfDigits q.1
    else (natOfDigits p.1 : ℚ)
  | _ => (natOfDigits p.1 : ℚ)

def findNumToken : List Char → Option ℚ
  | [] => none
  | c :: cs =>
    if c.isDigit then
      some (numTokenValAt (c :: cs))
    else if c = '.' then
      match cs with
      | d :: _ =>
        if d.isDigit then some (fracOfDigits (takeDigits cs).1)
        else findNumToken cs
      | [] => none
    else findNumToken cs

/-- The `for line in text.lower().split("\n")` loop body. -/
def scanConfLines : List (List Char) → Option ℚ
  | [] => none
  | line :: rest =>
    if containsSub "confidence:".data line || containsSub "confidence level:".data line then
      match findNumToken line with
      | some v => some v
      | none => scanConfLines rest
    else scanConfLines rest

/-- `value / 100 if value > 1 else value` (the percentage rule). -/
def pctRule (v : ℚ) : ℚ := if v > 1 then v / 100 else v

/-- `ConsortiumOrchestrator._parse_confidence_value(text, default)`. -/
def parse_confidence_value (text : String) (default : ℚ := 0) : ℚ :=
  match searchConfXML text.data with
  | some v => pctRule v
  | none =>
    match scanConfLines (splitNL (text.data.map Char.toLower)) with
    | some v => pctRule v
    | none => default

/-- `ConsortiumOrchestrator._extract_confidence(text)`. -/
def extract_confidence (text : String) : ℚ := parse_confidence_value text 0


/-! ### Data model

Python dicts with fixed key sets become structures.  `SynthesisResult`
models the dict produced by the three arbiter parsers and by the fallback
path of `_synthesize_responses`; the judging-method-specific keys
(`chosen_id`, `ranking`) are `Option`-valued and default to `none` to
model their absence from default-method dicts. -/

/-- The synthesis dict (source lines 514-522, 537-545, 582-586, 601-605). -/
structure SynthesisResult where
  synthesis : String
  confidence : ℚ
  analysis : String
  dissent : String
  needs_iteration : Bool
  refinement_areas : List String
  raw_arbiter_response : String := ""
  chosen_id : Option Nat := none
  ranking : Option (List Nat) := none
deriving DecidableEq, Repr

/-- One worker-response record as built by `_get_model_response`
(`instance` is a Lean keyword, hence `instanceNum`; `response` and `error`
are the mutually exclusive dict keys; `id` is assigned afterwards by
`orchestrate`). -/
structure ModelResponse where
  model : String
  instanceNum : Nat
  response : Option String := none
  error : Option String := none
  confidence : ℚ := 0
  id : Nat := 0
deriving DecidableEq, Repr

/-- `IterationContext` (source lines 151-154). -/
structure IterationContext where
  synthesis : SynthesisResult
  model_responses : List ModelResponse
deriving DecidableEq, Repr

/-- `ConsortiumConfig` (source lines 156-163).  The pydantic model checks
field types only; it contains no cross-field validator (in particular
none relating `minimum_iterations` to `max_iterations`). -/
structure ConsortiumConfig where
  models : List (String × Int)
  system_prompt : Option String := none
  confidence_threshold : ℚ := 8/10
  max_iterations : Nat := 3
  minimum_iterations : Nat := 1
  arbiter : Option String := none
  judging_method : String := "default"
deriving DecidableEq, Repr

/-! ### Tag scanners shared by the pick-one / rank / default parsers -/

/-- Rest of the input after the first case-insensitive occurrence of
`pat` (the leftmost position where the literal prefix of a pattern
matches). -/
def findOpenCI (pat : List Char) (s : List Char) : Option (List Char) :=
  match matchCI pat s with
  | some rest => some rest
  | none =>
    match s with
    | [] => none
    | _ :: cs => findOpenCI pat cs

/-- Lazy `([\s\S]*?)` up to the first case-insensitive occurrence of
`pat`: returns `(content, rest-after-pat)`. -/
def contentUpToCI (pat : List Char) (s : List Char) : Option (List Char × List Char) :=
  match matchCI pat s with
  | some rest => some ([], rest)
  | none =>
    match s with
    | [] => none
    | c :: cs =>
      match contentUpToCI pat cs with
      | some (content, rest) => some (c :: content, rest)
      | none => none

/-- `re.search(openPat ++ "([\s\S]*?)" ++ closePat, s, IGNORECASE|DOTALL)`:
the leftmost whole-pattern match starts at the first occurrence of
`openPat` that is followed by some occurrence of `closePat` — which, if
any occurrence of `closePat` follows the first `openPat`, is the first
`openPat` (a close following a later open also follows the first one). -/
def findTagBlock (openPat closePat : List Char) (s : List Char) :
    Option (List Char × List Char) :=
  (findOpenCI openPat s).bind (contentUpToCI closePat)

/-- Attempt `openPat ++ \s*(\d+)\s* ++ closePat` at the current position.
`\d+` is taken maximally: with fewer digits the next character is a digit,
matching neither `\s*` nor the closing literal. -/
def tryTagNumAt (openPat closePat : List Char) (s : List Char) : Option Nat :=
  match matchCI openPat s with
  | none => none
  | some s1 =>
    let (ds, s3) := takeDigits (dropWS s1)
    if ds = [] then none
    else
      match matchCI closePat (dropWS s3) with
      | some _ => some (natOfDigits ds)
      | none => none

/-- `re.search` for the numeric-tag pattern: leftmost start position. -/
def searchTagNum (openPat closePat : List Char) (s : List Char) : Option Nat :=
  match tryTagNumAt openPat closePat s with
  | some k => some k
  | none =>
    match s with
    | [] => none
    | _ :: cs => searchTagNum openPat closePat cs

/-! ### `_parse_pick_one_response` (source lines 573-586) -/

/-- A single-quote character, built by code point to sidestep quoting. -/
def sglq : String := String.singleton (Char.ofNat 39)

/-- `ConsortiumOrchestrator._parse_pick_one_response`.  Python raises
`ValueError` on a missing tag or unknown id and `KeyError` when the chosen
record is an error record without a `'response'` key; all of these are
modelled as `.error` (they are caught uniformly one level up).  A found
record is a non-empty dict, so Python's `if not chosen_response` test is
exactly the `find?`-failure case. -/
def parse_pick_one_response (text : String) (responses : List ModelResponse) :
    Except String SynthesisResult :=
  match searchTagNum "<response_id>".data "</response_id>".data text.data with
  | none => .error "Could not find a valid <response_id> tag."
  | some chosen_id =>
    match responses.find? (fun r => r.id = chosen_id) with
    | none =>
      .error ("Arbiter chose response ID " ++ toString chosen_id ++
        ", but this ID was not found.")
    | some r =>
      match r.response with
      | none => .error "KeyError: response"
      | some t =>
        .ok { synthesis := t, confidence := 1,
              analysis := "Arbiter selected response #" ++ toString chosen_id ++
                " from model " ++ sglq ++ r.model ++ sglq ++ ".",
              dissent := "", needs_iteration := false, refinement_areas := [],
              chosen_id := some chosen_id }

/-! ### `_parse_rank_response` (source lines 588-605) -/

/-- Attempt `<rank position="\d+">(\d+)</rank>` (IGNORECASE) at the
current position; on success returns the captured id and the rest of the
input after the match (for `re.findall`'s continuation). -/
def tryRankAt (s : List Char) : Option (Nat × List Char) :=
  match matchCI "<rank position=\"".data s with
  | none => none
  | some s1 =>
    let (ds1, s2) := takeDigits s1
    if ds1 = [] then none
    else
      match matchCI "\">".data s2 with
      | none => none
      | some s3 =>
        let (ds2, s4) := takeDigits s3
        if ds2 = [] then none
        else
          match matchCI "</rank>".data s4 with
          | some rest => some (natOfDigits ds2, rest)
          | none => none

/-- `re.findall` for the rank pattern: non-overlapping leftmost matches,
scanning resumes after each match.  `fuel` bounds the recursion; every
step consumes at least one character, so callers pass the input length. -/
def findallRank : Nat → List Char → List Nat
  | 0, _ => []
  | fuel + 1, s =>
    match tryRankAt s with
    | some (k, rest) => k :: findallRank fuel rest
    | none =>
      match s with
      | [] => []
      | _ :: cs => findallRank fuel cs

/-- `ConsortiumOrchestrator._parse_rank_response`; failure modes modelled
as in `parse_pick_one_response`. -/
def parse_rank_response (text : String) (responses : List ModelResponse) :
    Except String SynthesisResult :=
  match findTagBlock "<ranking>".data "</ranking>".data text.data with
  | none => .error "Could not find a <ranking> tag."
  | some (content, _) =>
    match findallRank content.length content with
    | [] => .error "Found <ranking> tag, but no valid <rank> tags inside."
    | top_id :: restIds =>
      let ranked_ids := top_id :: restIds
      match responses.find? (fun r => r.id = top_id) with
      | none => .error ("Top-ranked response ID " ++ toString top_id ++ " not found.")
      | some r =>
        match r.response with
        | none => .error "KeyError: response"
        | some t =>
          .ok { synthesis := t, confidence := 1,
                analysis := "Arbiter ranked all responses. Top choice is #" ++
                  toString top_id ++ " from " ++ sglq ++ r.model ++ sglq ++
                  ". Full ranking: [" ++
                  String.intercalate ", " (ranked_ids.map toString) ++ "]",
                dissent := "", needs_iteration := false, refinement_areas := [],
                ranking := some ranked_ids }

/-! ### `_parse_arbiter_response` (source lines 525-571, judging method
"default").  Each section is extracted independently; a missing or
malformed section leaves that field at its default, and the function
never raises. -/

/-- Python `str.strip()` on ASCII whitespace. -/
def trimWS (s : List Char) : List Char := (dropWS (dropWS s.reverse).reverse)

/-- Maximal run of `[\d.]` characters. -/
def takeDigitsDots : List Char → List Char × List Char
  | [] => ([], [])
  | c :: cs =>
    if c.isDigit || c = '.' then
      let (ds, rest) := takeDigitsDots cs
      (c :: ds, rest)
    else ([], c :: cs)

/-- `float()` applied to a `[\d.]+` token: defined exactly when the token
has at most one dot and at least one digit (`float("1.")`, `float(".5")`
succeed; `float(".")`, `float("1.2.3")` raise `ValueError`). -/
def pyFloatOfToken (cs : List Char) : Option ℚ :=
  match splitSep '.' cs with
  | [ds] => if ds = [] then none else some ((natOfDigits ds : ℚ))
  | [ds, fs] =>
    if ds = [] ∧ fs = [] then none
    else some ((natOfDigits ds : ℚ) + fracOfDigits fs)
  | _ => none

/-- Attempt `<confidence>\s*([\d.]+)\s*</confidence>` (the default
parser's confidence pattern, distinct from `_parse_confidence_value`'s)
at the current position, returning the captured token.  `[\d.]+` is
maximal: a shorter run leaves a digit or dot, matching neither `\s*` nor
`</confidence>`. -/
def tryConfSectionAt (s : List Char) : Option (List Char) :=
  match matchCI "<confidence>".data s with
  | none => none
  | some s1 =>
    let (tok, s3) := takeDigitsDots (dropWS s1)
    if tok = [] then none
    else
      match matchCI "</confidence>".data (dropWS s3) with
      | some _ => some tok
      | none => none

/-- `re.search` for the confidence section. -/
def searchConfSection : List Char → Option (List Char)
  | [] => none
  | c :: cs =>
    match tryConfSectionAt (c :: cs) with
    | some tok => some tok
    | none => searchConfSection cs

/-- Attempt `<needs_iteration>(true|false)</needs_iteration>`
(IGNORECASE, no whitespace allowed by the pattern) at the current
position. -/
def tryNeedsIterAt (s : List Char) : Option Bool :=
  match matchCI "<needs_iteration>".data s with
  | none => none
  | some s1 =>
    match matchCI "true</needs_iteration>".data s1 with
    | some _ => some true
    | none =>
      match matchCI "false</needs_iteration>".data s1 with
      | some _ => some false
      | none => none

/-- `re.search` for the needs-iteration section; the extracted group is
compared via `.lower() == "true"`, i.e. it is `true` exactly when the
first alternative matched. -/
def searchNeedsIter : List Char → Option Bool
  | [] => none
  | c :: cs =>
    match tryNeedsIterAt (c :: cs) with
    | some b => some b
    | none => searchNeedsIter cs

/-- Attempt one alternative of the refinement-area delimiter
`\s*<area>\s*|\s*</area>\s*` (compiled without flags, hence
case-sensitive) at the current position; returns the rest after the
match.  Leading/trailing `\s*` are maximal: the literals start with `<`,
which is not whitespace. -/
def tryAreaDelim (s : List Char) : Option (List Char) :=
  let s1 := dropWS s
  match matchCS "<area>".data s1 with
  | some r => some (dropWS r)
  | none =>
    match matchCS "</area>".data s1 with
    | some r => some (dropWS r)
    | none => none

/-- `re.split` on the area delimiter: pieces between leftmost
non-overlapping delimiter matches.  Every step consumes at least one
character, so `fuel := length + 1` suffices at the call site. -/
def splitAreasGo : Nat → List Char → List Char → List (List Char)
  | 0, acc, _ => [acc.reverse]
  | fuel + 1, acc, s =>
    match tryAreaDelim s with
    | some rest => acc.reverse :: splitAreasGo fuel [] rest
    | none =>
      match s with
      | [] => [acc.reverse]
      | c :: cs => splitAreasGo fuel (c :: acc) cs

/-- `ConsortiumOrchestrator._parse_arbiter_response`.  The result dict is
initialised with the full raw text as fallback synthesis and confidence
`0.0`; each successfully matched section overwrites its field
(`raw_arbiter_response` is attached later by `_synthesize_responses`). -/
def parse_arbiter_response (text : String) : SynthesisResult :=
  let cs := text.data
  let synthesis :=
    match findTagBlock "<synthesis>".data "</synthesis>".data cs with
    | some (content, _) => String.mk (trimWS content)
    | none => text
  let confidence :=
    match searchConfSection cs with
    | some tok =>
      match pyFloatOfToken (trimWS tok) with
      | some v => pctRule v
      | none => 0
    | none => 0
  let analysis :=
    match findTagBlock "<analysis>".data "</analysis>".data cs with
    | some (content, _) => String.mk (trimWS content)
    | none => ""
  let dissent :=
    match findTagBlock "<dissent>".data "</dissent>".data cs with
    | some (content, _) => String.mk (trimWS content)
    | none => ""
  let needs_iteration := (searchNeedsIter cs).getD false
  let refinement_areas :=
    match findTagBlock "<refinement_areas>".data "</refinement_areas>".data cs with
    | some (content, _) =>
      let inner := trimWS content
      ((splitAreasGo (inner.length + 1) [] inner).map trimWS).filterMap
        (fun p => if p = [] then none else some (String.mk p))
    | none => []
  { synthesis, confidence, analysis, dissent, needs_iteration, refinement_areas }

/-! ### `_synthesize_responses`, parsing half (source lines 499-522)

The first half of `_synthesize_responses` builds the arbiter prompt and
performs the network call; both are collaborator capabilities, so the raw
arbiter text arrives here as a parameter.  The `hasattr(self,
'judging_method')` guards are always true (the attribute is set in
`__init__`). -/

/-- The fallback dict built by the `except` handler (lines 514-522). -/
def parseFallback (raw_arbiter_text : String) : SynthesisResult :=
  { synthesis := raw_arbiter_text, confidence := 0,
    analysis := "Parsing failed - see raw response", dissent := "",
    needs_iteration := false, refinement_areas := [],
    raw_arbiter_response := raw_arbiter_text }

/-- Parser dispatch plus the `try/except` that converts any parser
exception into the fallback dict; on success the raw text is attached
under `raw_arbiter_response`. -/
def synthesize_responses (judging_method : String) (raw_arbiter_text : String)
    (responses : List ModelResponse) : SynthesisResult :=
  let parsed : Except String SynthesisResult :=
    if judging_method = "pick-one" then
      parse_pick_one_response raw_arbiter_text responses
    else if judging_method = "rank" then
      parse_rank_response raw_arbiter_text responses
    else
      .ok (parse_arbiter_response raw_arbiter_text)
  match parsed with
  | .ok r => { r with raw_arbiter_response := raw_arbiter_text }
  | .error _ => parseFallback raw_arbiter_text

/-! ### `_get_model_response` (source lines 303-341)

The network call `llm.get_model(model).prompt(...)` is a collaborator; an
oracle gives the outcome of each attempt.  Python classifies an exception
as rate-limited iff `"RateLimitError" in str(e)`; the classification is
part of the oracle's answer.  Crucially, the `model == 'test-model'`
branch builds a fake response object but contains no `return` statement,
and no code follows the `if/else` — on that branch the function falls off
its end, so Python returns `None` (modelled as `none`). -/

/-- Outcome of one attempt at `llm.get_model(model).prompt(xml_prompt)`. -/
inductive WorkerOutcome where
  | success (text : String)
  | rateLimited (msg : String)
  | failed (msg : String)
deriving DecidableEq, Repr

/-- The `while attempts < max_retries` loop (lines 315-341) with
`max_retries = 3`: `attempts` increments only on a rate-limit failure;
`remaining = 3 - attempts` makes the recursion structural.  The
`time.sleep` back-off only delays and is dropped. -/
def modelAttemptLoop (model : String) (instanceNum : Nat)
    (attemptOutcome : Nat → WorkerOutcome) : Nat → Nat → ModelResponse
  | _, 0 =>
    { model, instanceNum := instanceNum + 1,
      error := some "Rate limit exceeded after retries." }
  | attempts, remaining + 1 =>
    match attemptOutcome attempts with
    | .success text =>
      { model, instanceNum := instanceNum + 1, response := some text,
        confidence := extract_confidence text }
    | .failed msg =>
      { model, instanceNum := instanceNum + 1, error := some msg }
    | .rateLimited _ =>
      modelAttemptLoop model instanceNum attemptOutcome (attempts + 1) remaining

/-- `ConsortiumOrchestrator._get_model_response`.  `instanceNum` is the
0-based instance index the caller passes. -/
def get_model_response (model : String) (instanceNum : Nat)
    (attemptOutcome : Nat → WorkerOutcome) : Option ModelResponse :=
  if model = "test-model" then
    -- response = llm.Response.fake(); response._set_content('test response')
    -- ... and then nothing: no return statement exists on this branch,
    -- so the function returns None.
    none
  else
    some (modelAttemptLoop model instanceNum attemptOutcome 0 3)

/-! ### `orchestrate` (source lines 187-285)

State machine embedding.  The orchestrator's mutable attributes that the
round loop reads or writes are the structure below; `orchestrate` returns
the updated orchestrator together with its result dict, modelling that
`self.iteration_history` (appended to, line 242) and
`self.max_iterations` (overwritten, line 216) persist on `self` across
invocations, while `iteration_count` is a local variable.

Collaborators are oracles: `synthOf round history` is the dict returned
by `_synthesize_responses` for the given round when
`self.iteration_history` holds `history` (the history is replayed into
the arbiter prompt via `_format_iteration_history`, so the arbiter's
answer may depend on it); `none` models the defensively-handled case of a
missing synthesis.  `respOf round` is the list collected by
`_get_model_responses` for the round; prompt strings influence only the
oracles and are not part of the control state. -/

/-- Arbiter behaviour for a round, given the current iteration history. -/
def SynthOracle : Type := Nat → List IterationContext → Option SynthesisResult

/-- Worker-dispatch behaviour for a round. -/
def RespOracle : Type := Nat → List ModelResponse

/-- The mutable orchestrator attributes set in `__init__`
(lines 172-185). -/
structure ConsortiumOrchestrator where
  models : List (String × Int)
  system_prompt : Option String
  confidence_threshold : ℚ
  max_iterations : Nat
  minimum_iterations : Nat
  arbiter : String
  judging_method : String
  iteration_history : List IterationContext
deriving DecidableEq, Repr

/-- `ConsortiumOrchestrator.__init__(config)`:
`self.iteration_history = []`, `self.arbiter = config.arbiter or
"gemini-2.0-flash"`. -/
def ConsortiumOrchestrator.init (config : ConsortiumConfig) : ConsortiumOrchestrator :=
  { models := config.models
    system_prompt := config.system_prompt
    confidence_threshold := config.confidence_threshold
    max_iterations := config.max_iterations
    minimum_iterations := config.minimum_iterations
    arbiter := config.arbiter.getD "gemini-2.0-flash"
    judging_method := config.judging_method
    iteration_history := [] }

/-- `for i, r in enumerate(model_responses, 1): r['id'] = i`
(lines 225-226). -/
def assignIds (rs : List ModelResponse) : List ModelResponse :=
  (List.enumFrom 1 rs).map (fun p => { p.2 with id := p.1 })

/-- Local variables of `orchestrate` at loop exit: `iteration_count`,
`self.iteration_history`, `raw_arbiter_response_final`, `final_result`,
the `synthesis_result` variable (`none` while still unbound, `some none`
for a bound Python `None`) and `model_responses`. -/
structure LoopOut where
  iteration_count : Nat
  iteration_history : List IterationContext
  raw_final : String
  final_result : Option SynthesisResult
  last_synthesis : Option (Option SynthesisResult)
  model_responses : List ModelResponse
deriving DecidableEq, Repr

/-- The error dict built when synthesis is `None` with empty history
(lines 257-261). -/
def errFailedSynthesis (raw : String) : SynthesisResult :=
  { synthesis := "Error: Failed to get synthesis.", confidence := 0,
    analysis := "Consortium failed.", dissent := "", needs_iteration := false,
    refinement_areas := [], raw_arbiter_response := raw }

/-- The error dict built after the loop when no synthesis exists at all
(lines 267-271). -/
def errNoFinal (raw : String) : SynthesisResult :=
  { synthesis := "Error: No final synthesis.", confidence := 0,
    analysis := "Consortium finished iterations.", dissent := "",
    needs_iteration := false, refinement_areas := [],
    raw_arbiter_response := raw }

/-- The `while iteration_count < self.max_iterations or iteration_count <
self.minimum_iterations` loop (lines 218-262).  One round increments the
counter, dispatches (`respOf`), assigns ids, synthesizes with the current
history, appends the iteration context, and breaks when `confidence >=
threshold and iteration_count >= minimum_iterations`.  When the guard is
true the counter strictly increases, so `fuel := max maxIt minIt -
iteration_count` bounds the rounds; callers pass sufficient fuel and the
`fuel = 0` case is unreachable (`orchLoop_spec` below never needs it).

Note on the `synthOf _ _ = none` branch: line 231 of the source reads
`synthesis_result.get("raw_arbiter_response", "")` before the `None`
check, which on a real `None` would raise `AttributeError`; since
`_synthesize_responses` always returns a dict, the branch is defensive
dead code, and we model line 231 on it as yielding `""`. -/
def orchLoop (threshold : ℚ) (minIt maxIt : Nat) (synthOf : SynthOracle)
    (respOf : RespOracle) :
    Nat → Nat → List IterationContext → String → Option (Option SynthesisResult) →
    List ModelResponse → LoopOut
  | fuel, iteration_count, hist, raw, lastSynth, lastResp =>
    if iteration_count < maxIt ∨ iteration_count < minIt then
      match fuel with
      | 0 => ⟨iteration_count, hist, raw, none, lastSynth, lastResp⟩
      | fuel' + 1 =>
        let count' := iteration_count + 1
        let model_responses := assignIds (respOf count')
        match synthOf count' hist with
        | some s =>
          let hist' := hist ++ [⟨s, model_responses⟩]
          if s.confidence ≥ threshold ∧ count' ≥ minIt then
            ⟨count', hist', s.raw_arbiter_response, some s, some (some s),
              model_responses⟩
          else
            orchLoop threshold minIt maxIt synthOf respOf fuel' count' hist'
              s.raw_arbiter_response (some (some s)) model_responses
        | none =>
          let fb :=
            match hist.getLast? with
            | some ctx => ctx.synthesis
            | none => errFailedSynthesis ""
          ⟨count', hist, "", some fb, some none, model_responses⟩
    else
      ⟨iteration_count, hist, raw, none, lastSynth, lastResp⟩

/-- The dict `orchestrate` returns (lines 274-285); the metadata's
wall-clock timestamp is outside the embedding. -/
structure OrchestrateResult where
  original_prompt : String
  model_responses_final_iteration : List ModelResponse
  synthesis : SynthesisResult
  metadata_models_used : List (String × Int)
  metadata_arbiter : String
  metadata_iteration_count : Nat
deriving DecidableEq, Repr

/-- `ConsortiumOrchestrator.orchestrate`.  A `none` result models the
`NameError` Python would raise at line 267 (`synthesis_result` never
bound) when the loop body never runs, i.e. when both bounds are zero. -/
def ConsortiumOrchestrator.orchestrate (self : ConsortiumOrchestrator)
    (prompt : String) (synthOf : SynthOracle) (respOf : RespOracle) :
    Option (OrchestrateResult × ConsortiumOrchestrator) :=
  -- if self.judging_method != "default": self.max_iterations = 1
  let self1 :=
    if self.judging_method ≠ "default" then { self with max_iterations := 1 }
    else self
  let out := orchLoop self1.confidence_threshold self1.minimum_iterations
    self1.max_iterations synthOf respOf
    (max self1.max_iterations self1.minimum_iterations) 0
    self1.iteration_history "" none []
  let final? : Option SynthesisResult :=
    match out.final_result with
    | some r => some r
    | none =>
      match out.last_synthesis with
      | some (some s) => some s
      | some none => some (errNoFinal out.raw_final)
      | none => none
  match final? with
  | none => none
  | some final_result =>
    some ({ original_prompt := prompt
            model_responses_final_iteration := out.model_responses
            synthesis := final_result
            metadata_models_used := self1.models
            metadata_arbiter := self1.arbiter
            metadata_iteration_count := out.iteration_count },
          { self1 with iteration_history := out.iteration_history })

/-! ### CLI-side configuration construction (source lines 608-625 and
912-986)

`run_command` builds the config the orchestrator is constructed from.
Everything between argument parsing and `ConsortiumOrchestrator(...)`
that can reject a configuration is embedded: `parse_models` (which
raises `ValueError` on a malformed count) and the confidence-threshold
range check.  There is no check relating `minimum_iterations` to
`max_iterations` anywhere in `run_command`, `save_command`,
`create_consortium` or the pydantic `ConsortiumConfig` itself. -/

/-- Python `int(s)`: strips surrounding whitespace, optional sign,
decimal digits (PEP 515 underscores are not modelled). -/
def parsePyInt (s : String) : Option Int :=
  let cs := trimWS s.data
  match cs with
  | '-' :: ds =>
    if ds ≠ [] ∧ ds.all (fun c => c.isDigit) then some (-(natOfDigits ds : Int))
    else none
  | '+' :: ds =>
    if ds ≠ [] ∧ ds.all (fun c => c.isDigit) then some ((natOfDigits ds : Int))
    else none
  | ds =>
    if ds ≠ [] ∧ ds.all (fun c => c.isDigit) then some ((natOfDigits ds : Int))
    else none

/-- Insertion-ordered dict update `model_dict[name] = n`. -/
def upsert (k : String) (v : Int) : List (String × Int) → List (String × Int)
  | [] => [(k, v)]
  | (k', v') :: rest => if k' = k then (k, v) :: rest else (k', v') :: upsert k v rest

/-- `item.split(':', 1)` for an item known to contain a colon. -/
def splitFirstColon : List Char → List Char × List Char
  | [] => ([], [])
  | c :: rest =>
    if c = ':' then ([], rest)
    else
      let (a, b) := splitFirstColon rest
      (c :: a, b)

/-- The body of `parse_models` (source lines 608-625), folding over the
CLI items. -/
def parse_models_go (count : Int) :
    List String → List (String × Int) → Except String (List (String × Int))
  | [], model_dict => .ok model_dict
  | item :: rest, model_dict =>
    if item.data.contains ':' then
      let (name, cntStr) := splitFirstColon item.data
      match parsePyInt (String.mk cntStr) with
      | some n => parse_models_go count rest (upsert (String.mk name) n model_dict)
      | none =>
        .error ("Invalid count for model " ++ String.mk name ++ ": " ++
          String.mk cntStr)
    else parse_models_go count rest (upsert item count model_dict)

/-- `parse_models(models, count)`. -/
def parse_models (models : List String) (count : Int) :
    Except String (List (String × Int)) :=
  parse_models_go count models []

/-- The configuration-relevant prefix of `run_command` (lines 912-986):
model-list defaulting, `parse_models`, the confidence-threshold
percentage conversion and range check, then the `ConsortiumConfig`
construction passed to `ConsortiumOrchestrator`.  Prompt/stdin handling
and system-prompt file loading are collaborator interactions; the round
bounds are passed through without any validation. -/
def run_command_config (models : List String) (count : Int) (arbiter : String)
    (confidence_threshold : ℚ) (max_iterations minimum_iterations : Nat)
    (system_prompt_content : Option String) (judging_method : String) :
    Except String ConsortiumConfig :=
  let models :=
    if models = [] then
      ["claude-3-opus-20240229", "claude-3-sonnet-20240229", "gpt-4", "gemini-pro"]
    else models
  match parse_models models count with
  | .error e => .error e
  | .ok model_dict =>
    if confidence_threshold > 1 then
      if confidence_threshold ≤ 100 then
        .ok { models := model_dict, system_prompt := system_prompt_content,
              confidence_threshold := confidence_threshold / 100,
              max_iterations, minimum_iterations,
              arbiter := some arbiter, judging_method }
      else .error "Confidence threshold must be between 0.0 and 1.0 (or 0 and 100)."
    else if confidence_threshold < 0 then
      .error "Confidence threshold must be non-negative."
    else
      .ok { models := model_dict, system_prompt := system_prompt_content,
            confidence_threshold := confidence_threshold,
            max_iterations, minimum_iterations,
            arbiter := some arbiter, judging_method }



/-! ### Concrete instances used by witnesses and counterexamples -/

/-- A constant synthesis dict with a given confidence. -/
def constSynth (c : ℚ) : SynthesisResult :=
  { synthesis := "synthesized answer", confidence := c, analysis := "a",
    dissent := "", needs_iteration := true, refinement_areas := [],
    raw_arbiter_response := "raw arbiter text" }

/-- A single successful worker record. -/
def wResp : ModelResponse :=
  { model := "m", instanceNum := 1, response := some "worker text" }

/-- Dispatch oracle returning one worker response per round. -/
def oneResp : RespOracle := fun _ => [wResp]

/-- Arbiter oracle: confidence 1/2 in round 1, 9/10 afterwards. -/
def oW12 : SynthOracle :=
  fun r _ => some (constSynth (if r = 1 then 1/2 else 9/10))

/-- Arbiter oracle with constant confidence 0. -/
def oZero : SynthOracle := fun _ _ => some (constSynth 0)

/-- Default-judging config: threshold 4/5, max 3 rounds, min 1. -/
def cfgW : ConsortiumConfig :=
  { models := [("m", 1)], confidence_threshold := 4/5, max_iterations := 3,
    minimum_iterations := 1 }

/-- Pick-one config with `minimum_iterations = 2` (and `max_iterations`
at its default 3). -/
def pickDemoCfg : ConsortiumConfig :=
  { models := [("m", 1)], confidence_threshold := 4/5, max_iterations := 3,
    minimum_iterations := 2, judging_method := "pick-one" }

/-- Arbiter raw text naming worker response 1. -/
def pickDemoRaw : String := "<response_id>1</response_id>"

/-- Arbiter oracle for the pick-one pipeline: the synthesis of each round
is exactly what `_synthesize_responses` produces from the constant raw
arbiter text and the round's id-tagged responses. -/
def pickDemoSynth : SynthOracle :=
  fun r _ => some (synthesize_responses "pick-one" pickDemoRaw (assignIds (oneResp r)))

/-- Worker record `i` for the pick-one success scenario (ids are the
per-round sequence ids `orchestrate` assigns). -/
def wr (i : Nat) : ModelResponse :=
  { model := "worker-" ++ toString i, instanceNum := 1,
    response := some ("text-" ++ toString i), id := i }

/-- The config `run_command` builds for `["worker-a:2"]` with threshold
4/5, `max_iterations = 1`, `minimum_iterations = 3`. -/
def c8Cfg : ConsortiumConfig :=
  { models := [("worker-a", 2)], system_prompt := none,
    confidence_threshold := 4/5, max_iterations := 1, minimum_iterations := 3,
    arbiter := some "arb", judging_method := "default" }

/-- Arbiter oracle whose synthesis text records the length of the
iteration history it was shown (the history is replayed into the arbiter
prompt, so its answer may depend on it). -/
def histLenOracle : SynthOracle :=
  fun _ h => some
    { synthesis := toString h.length, confidence := 1, analysis := "",
      dissent := "", needs_iteration := false, refinement_areas := [],
      raw_arbiter_response := "" }

/-- One-round config for the repeated-invocation scenario. -/
def c10Cfg : ConsortiumConfig :=
  { models := [("m", 1)], confidence_threshold := 4/5, max_iterations := 1,
    minimum_iterations := 1 }

/-- The synthesis the first invocation produces (history length 0). -/
def c10S0 : SynthesisResult :=
  { synthesis := "0", confidence := 1, analysis := "", dissent := "",
    needs_iteration := false, refinement_areas := [],
    raw_arbiter_response := "" }

/-- The orchestrator state after the first invocation on a fresh
orchestrator for `c10Cfg`. -/
def c10St1 : ConsortiumOrchestrator :=
  { ConsortiumOrchestrator.init c10Cfg with
    iteration_history := [⟨c10S0, assignIds (oneResp 1)⟩] }

/-- The result dict of that first invocation. -/
def c10Res1 : OrchestrateResult :=
  { original_prompt := "q", model_responses_final_iteration := assignIds (oneResp 1),
    synthesis := c10S0, metadata_models_used := [("m", 1)],
    metadata_arbiter := "gemini-2.0-flash", metadata_iteration_count := 1 }

/-- Confidence of the synthesis the arbiter oracle yields for a round. -/
def confAt (sO : SynthOracle) (r : Nat) (h : List IterationContext) : ℚ :=
  match sO r h with
  | some s => s.confidence
  | none => 0

/-- Loop invariant bundle: the final round count is between
`minimum_iterations` and `max maxIt minIt`, strictly above the entry
count, the history grew by exactly one context per executed round, and a
final synthesis is available (either `final_result` was set by a break,
or the guard ran out with the last round's synthesis bound). -/
def LoopOutSpec (minIt maxIt count : Nat) (hist : List IterationContext)
    (out : LoopOut) : Prop :=
  minIt ≤ out.iteration_count ∧ out.iteration_count ≤ max maxIt minIt ∧
  count < out.iteration_count ∧
  out.iteration_history.length = hist.length + (out.iteration_count - count) ∧
  (out.final_result.isSome = true ∨ ∃ s, out.last_synthesis = some (some s))

/-! ### Lemmas: every value the confidence extractor can produce is
nonnegative (the patterns contain no sign, so parsed numbers are
nonnegative, and the percentage rule preserves that). -/

theorem orElse_some {α : Type} {a : Option α} {f : Unit → Option α} {v : α}
    (h : a.orElse f = some v) : a = some v ∨ f () = some v := by
  cases a with
  | none => right; simpa [Option.orElse] using h
  | some x => left; simpa [Option.orElse] using h

theorem fracOfDigits_nonneg (ds : List Char) : 0 ≤ fracOfDigits ds := by
  unfold fracOfDigits
  exact div_nonneg (Nat.cast_nonneg _) (by positivity)

theorem confCand1_nonneg {s : List Char} {v : ℚ} (h : confCand1 s = some v) :
    0 ≤ v := by
  unfold confCand1 at h
  repeat' split at h
  all_goals cases h
  all_goals exact fracOfDigits_nonneg _


theorem confCand2_nonneg {s : List Char} {v : ℚ} (h : confCand2 s = some v) :
    0 ≤ v := by
  unfold confCand2 at h
  repeat' split at h
  all_goals cases h
  all_goals exact Nat.cast_nonneg _


theorem confCand3_nonneg {s : List Char} {v : ℚ} (h : confCand3 s = some v) :
    0 ≤ v := by
  unfold confCand3 at h
  repeat' split at h
  all_goals cases h
  all_goals exact fracOfDigits_nonneg _


theorem confCand4_nonneg {s : List Char} {v : ℚ} (h : confCand4 s = some v) :
    0 ≤ v := by
  unfold confCand4 at h
  repeat' split at h
  all_goals cases h
  all_goals exact Nat.cast_nonneg _


theorem confCand5_nonneg {s : List Char} {v : ℚ} (h : confCand5 s = some v) :
    0 ≤ v := by
  unfold confCand5 at h
  repeat' split at h
  all_goals cases h
  all_goals norm_num


theorem tryConfAt_nonneg {s : List Char} {v : ℚ} (h : tryConfAt s = some v) :
    0 ≤ v := by
  unfold tryConfAt at h
  split at h
  · cases h
  · rcases orElse_some h with h1 | h
    · exact confCand1_nonneg h1
    rcases orElse_some h with h2 | h
    · exact confCand2_nonneg h2
    rcases orElse_some h with h3 | h
    · exact confCand3_nonneg h3
    rcases orElse_some h with h4 | h5
    · exact confCand4_nonneg h4
    · exact confCand5_nonneg h5

theorem searchConfXML_nonneg :
    ∀ {s : List Char} {v : ℚ}, searchConfXML s = some v → 0 ≤ v := by
  intro s
  induction s with
  | nil => intro v h; cases h
  | cons c cs ih =>
    intro v h
    unfold searchConfXML at h
    rcases orElse_some h with h1 | h2
    · exact tryConfAt_nonneg h1
    · exact ih h2

theorem numTokenValAt_nonneg (s : List Char) : 0 ≤ numTokenValAt s := by
  unfold numTokenValAt
  dsimp only
  repeat' split
  · exact add_nonneg (Nat.cast_nonneg _) (fracOfDigits_nonneg _)
  · exact Nat.cast_nonneg _
  · exact Nat.cast_nonneg _

theorem findNumToken_nonneg :
    ∀ {s : List Char} {v : ℚ}, findNumToken s = some v → 0 ≤ v := by
  intro s
  induction s with
  | nil => intro v h; cases h
  | cons c cs ih =>
    intro v h
    unfold findNumToken at h
    split at h
    · cases h; exact numTokenValAt_nonneg _
    · split at h
      · split at h
        · split at h
          · cases h; exact fracOfDigits_nonneg _
          · exact ih h
        · cases h
      · exact ih h


theorem scanConfLines_nonneg :
    ∀ {ls : List (List Char)} {v : ℚ}, scanConfLines ls = some v → 0 ≤ v := by
  intro ls
  induction ls with
  | nil => intro v h; cases h
  | cons line rest ih =>
    intro v h
    unfold scanConfLines at h
    split at h
    · split at h
      · cases h; exact findNumToken_nonneg (by assumption)
      · exact ih h
    · exact ih h

theorem pctRule_nonneg {v : ℚ} (h : 0 ≤ v) : 0 ≤ pctRule v := by
  unfold pctRule
  split
  · positivity
  · exact h

theorem parse_confidence_value_nonneg_aux (text : String) :
    0 ≤ parse_confidence_value text 0 := by
  unfold parse_confidence_value
  split
  · exact pctRule_nonneg (searchConfXML_nonneg (by assumption))
  · split
    · exact pctRule_nonneg (scanConfLines_nonneg (by assumption))
    · exact le_refl 0

/-! ### Lemmas about the round loop of `orchestrate` -/

/-- When the `while` guard is false the loop returns the current locals
unchanged, for any fuel. -/
theorem orchLoop_exit (threshold : ℚ) (minIt maxIt : Nat) (sO : SynthOracle)
    (rO : RespOracle) (fuel count : Nat) (hist : List IterationContext)
    (raw : String) (lastS : Option (Option SynthesisResult))
    (lastR : List ModelResponse)
    (h : ¬(count < maxIt ∨ count < minIt)) :
    orchLoop threshold minIt maxIt sO rO fuel count hist raw lastS lastR =
      ⟨count, hist, raw, none, lastS, lastR⟩ := by
  unfold orchLoop
  rw [if_neg h]

theorem orchLoop_spec (threshold : ℚ) (minIt maxIt : Nat) (sO : SynthOracle)
    (rO : RespOracle) (hS : ∀ r h, (sO r h).isSome = true) :
    ∀ fuel count hist raw lastS lastR,
      max maxIt minIt ≤ count + fuel →
      (count < maxIt ∨ count < minIt) →
      LoopOutSpec minIt maxIt count hist
        (orchLoop threshold minIt maxIt sO rO fuel count hist raw lastS lastR) := by
  intro fuel
  induction fuel with
  | zero =>
    intro count hist raw lastS lastR hfuel hguard
    exfalso
    rcases hguard with h | h <;> omega
  | succ fuel ih =>
    intro count hist raw lastS lastR hfuel hguard
    rw [orchLoop, if_pos hguard]
    dsimp only
    have hs := hS (count + 1) hist
    cases hsynth : sO (count + 1) hist with
    | none => rw [hsynth] at hs; cases hs
    | some s =>
      dsimp only
      by_cases hbreak : s.confidence ≥ threshold ∧ count + 1 ≥ minIt
      · rw [if_pos hbreak]
        refine ⟨hbreak.2, ?_, Nat.lt_succ_self _, ?_, Or.inl rfl⟩
        · rcases hguard with h | h
          · exact le_trans (Nat.succ_le_of_lt h) (Nat.le_max_left _ _)
          · exact le_trans (Nat.succ_le_of_lt h) (Nat.le_max_right _ _)
        · simp
      · rw [if_neg hbreak]
        by_cases hguard' : count + 1 < maxIt ∨ count + 1 < minIt
        · have hspec := ih (count + 1)
            (hist ++ [⟨s, assignIds (rO (count + 1))⟩])
            s.raw_arbiter_response (some (some s))
            (assignIds (rO (count + 1))) (by omega) hguard'
          obtain ⟨h1, h2, h3, h4, h5⟩ := hspec
          refine ⟨h1, h2, Nat.lt_of_succ_lt h3, ?_, h5⟩
          rw [h4]
          simp only [List.length_append, List.length_cons, List.length_nil]
          omega
        · rw [orchLoop_exit _ _ _ _ _ _ _ _ _ _ _ hguard']
          have hmin : minIt ≤ count + 1 := by omega
          refine ⟨hmin, ?_, Nat.lt_succ_self _, ?_, Or.inr ⟨s, rfl⟩⟩
          · rcases hguard with h | h
            · exact le_trans (Nat.succ_le_of_lt h) (Nat.le_max_left _ _)
            · exact le_trans (Nat.succ_le_of_lt h) (Nat.le_max_right _ _)
          · simp

/-- If no round before `k` satisfies the stop rule and round `k` (within
the max bound, at or past the min bound) does, the loop breaks exactly at
round `k` with that round's synthesis. -/
theorem orchLoop_stop (threshold : ℚ) (minIt maxIt : Nat) (sO : SynthOracle)
    (rO : RespOracle) (hS : ∀ r h, (sO r h).isSome = true) (k : Nat)
    (hkmax : k ≤ maxIt) (hkmin : minIt ≤ k)
    (hstop : ∀ h, threshold ≤ confAt sO k h)
    (hno : ∀ j h, 1 ≤ j → j < k → ¬(threshold ≤ confAt sO j h ∧ minIt ≤ j)) :
    ∀ fuel count hist raw lastS lastR,
      count < k → max maxIt minIt ≤ count + fuel →
      ∃ hk fr, sO k hk = some fr ∧
        orchLoop threshold minIt maxIt sO rO fuel count hist raw lastS lastR =
          ⟨k, hk ++ [⟨fr, assignIds (rO k)⟩], fr.raw_arbiter_response, some fr,
            some (some fr), assignIds (rO k)⟩ := by
  intro fuel
  induction fuel with
  | zero =>
    intro count hist raw lastS lastR hck hfuel
    exfalso
    omega
  | succ fuel ih =>
    intro count hist raw lastS lastR hck hfuel
    have hguard : count < maxIt ∨ count < minIt := Or.inl (lt_of_lt_of_le hck hkmax)
    rw [orchLoop, if_pos hguard]
    dsimp only
    have hs := hS (count + 1) hist
    cases hsynth : sO (count + 1) hist with
    | none => rw [hsynth] at hs; cases hs
    | some s =>
      dsimp only
      by_cases hk1 : count + 1 = k
      · have hc : threshold ≤ s.confidence := by
          have hh := hstop hist
          rw [← hk1] at hh
          simp only [confAt, hsynth] at hh
          exact hh
        rw [if_pos ⟨hc, by omega⟩]
        subst hk1
        exact ⟨hist, s, hsynth, rfl⟩
      · have hlt : count + 1 < k := by omega
        have hnb := hno (count + 1) hist (by omega) hlt
        have hnobreak : ¬(s.confidence ≥ threshold ∧ count + 1 ≥ minIt) := by
          rintro ⟨hc1, hc2⟩
          exact hnb ⟨by simp only [confAt, hsynth]; exact hc1, hc2⟩
        rw [if_neg hnobreak]
        exact ih (count + 1) (hist ++ [⟨s, assignIds (rO (count + 1))⟩])
          s.raw_arbiter_response (some (some s)) (assignIds (rO (count + 1)))
          hlt (by omega)

/-- The loop only appends to the iteration history it inherits. -/
theorem orchLoop_hist_extends (threshold : ℚ) (minIt maxIt : Nat)
    (sO : SynthOracle) (rO : RespOracle) :
    ∀ fuel count hist raw lastS lastR,
      ∃ d, (orchLoop threshold minIt maxIt sO rO fuel count hist raw lastS
        lastR).iteration_history = hist ++ d := by
  intro fuel
  induction fuel with
  | zero =>
    intro count hist raw lastS lastR
    by_cases hguard : count < maxIt ∨ count < minIt
    · rw [orchLoop, if_pos hguard]; exact ⟨[], by simp⟩
    · rw [orchLoop_exit _ _ _ _ _ _ _ _ _ _ _ hguard]; exact ⟨[], by simp⟩
  | succ fuel ih =>
    intro count hist raw lastS lastR
    by_cases hguard : count < maxIt ∨ count < minIt
    · rw [orchLoop, if_pos hguard]
      dsimp only
      cases hsynth : sO (count + 1) hist with
      | none => exact ⟨[], by simp⟩
      | some s =>
        dsimp only
        by_cases hbreak : s.confidence ≥ threshold ∧ count + 1 ≥ minIt
        · rw [if_pos hbreak]
          exact ⟨[⟨s, assignIds (rO (count + 1))⟩], rfl⟩
        · rw [if_neg hbreak]
          obtain ⟨d, hd⟩ := ih (count + 1)
            (hist ++ [⟨s, assignIds (rO (count + 1))⟩]) s.raw_arbiter_response
            (some (some s)) (assignIds (rO (count + 1)))
          exact ⟨[⟨s, assignIds (rO (count + 1))⟩] ++ d, by rw [hd]; simp⟩
    · rw [orchLoop_exit _ _ _ _ _ _ _ _ _ _ _ hguard]; exact ⟨[], by simp⟩

/-- `next((r for r in responses if r.get('id') == k), None)` finds the
unique record with id `k` when one exists. -/
theorem find_eq_of_mem_uniq {rs : List ModelResponse} {k : Nat} {r : ModelResponse}
    (hmem : r ∈ rs) (hid : r.id = k)
    (huniq : ∀ r' ∈ rs, r'.id = k → r' = r) :
    rs.find? (fun r' => r'.id = k) = some r := by
  induction rs with
  | nil => cases hmem
  | cons x xs ih =>
    by_cases hx : x.id = k
    · rw [List.find?_cons_of_pos _ (by simpa using hx)]
      rw [huniq x (List.mem_cons_self _ _) hx]
    · rw [List.find?_cons_of_neg _ (by simpa using hx)]
      have hmem' : r ∈ xs := by
        rcases List.mem_cons.mp hmem with h | h
        · exact absurd (h ▸ hid) hx
        · exact h
      exact ih hmem' (fun r' hr' => huniq r' (List.mem_cons_of_mem _ hr'))

/-- Shared orchestrate-level bound: with judging method "default",
`minimum_iterations ≥ 1` and every synthesis available, the invocation
succeeds, executes `n` rounds with `minimum_iterations ≤ n ≤
max(max_iterations, minimum_iterations)`, reports `n` in the metadata,
and appends exactly `n` contexts to the persistent history. -/
theorem orchestrate_bounds_aux
    (self : ConsortiumOrchestrator) (prompt : String) (sO : SynthOracle)
    (rO : RespOracle) (hjm : self.judging_method = "default")
    (hmin : 1 ≤ self.minimum_iterations)
    (hS : ∀ r h, (sO r h).isSome = true) :
    ∃ res st', self.orchestrate prompt sO rO = some (res, st') ∧
      self.minimum_iterations ≤ res.metadata_iteration_count ∧
      res.metadata_iteration_count ≤ max self.max_iterations self.minimum_iterations ∧
      st'.iteration_history.length =
        self.iteration_history.length + res.metadata_iteration_count := by
  obtain ⟨h1, h2, h3, h4, h5⟩ := orchLoop_spec self.confidence_threshold
    self.minimum_iterations self.max_iterations sO rO hS
    (max self.max_iterations self.minimum_iterations) 0 self.iteration_history
    "" none [] (by omega) (Or.inr (by omega))
  unfold ConsortiumOrchestrator.orchestrate
  rw [if_neg (by simp [hjm])]
  dsimp only
  set out := orchLoop self.confidence_threshold self.minimum_iterations
    self.max_iterations sO rO (max self.max_iterations self.minimum_iterations)
    0 self.iteration_history "" none [] with hout
  cases hfr : out.final_result with
  | some r =>
    dsimp only
    exact ⟨_, _, rfl, h1, h2, by dsimp only; omega⟩
  | none =>
    rcases h5 with h5 | ⟨s, hls⟩
    · rw [hfr] at h5; cases h5
    · rw [hls]
      dsimp only
      exact ⟨_, _, rfl, h1, h2, by dsimp only; omega⟩

/-! ### Claim theorems -/

/-- Claim C1: for every configuration with judging method "default",
`1 ≤ minimum_iterations ≤ max_iterations`, and every round's synthesis
available, `orchestrate` executes a number of rounds `n` with
`minimum_iterations ≤ n ≤ max_iterations` (exactly `n` iteration contexts
are appended), and reports that `n` as the metadata `iteration_count`. -/
theorem orchestrate_iteration_count_bounds
    (self : ConsortiumOrchestrator) (prompt : String) (sO : SynthOracle)
    (rO : RespOracle) (hjm : self.judging_method = "default")
    (hmin : 1 ≤ self.minimum_iterations)
    (hminmax : self.minimum_iterations ≤ self.max_iterations)
    (hS : ∀ r h, (sO r h).isSome = true) :
    ∃ res st', self.orchestrate prompt sO rO = some (res, st') ∧
      self.minimum_iterations ≤ res.metadata_iteration_count ∧
      res.metadata_iteration_count ≤ self.max_iterations ∧
      st'.iteration_history.length =
        self.iteration_history.length + res.metadata_iteration_count := by
  obtain ⟨res, st', heq, hlo, hhi, hlen⟩ :=
    orchestrate_bounds_aux self prompt sO rO hjm hmin hS
  exact ⟨res, st', heq, hlo, by omega, hlen⟩

/-- Witness for C1: threshold 4/5, max 3, min 1, confidences 1/2 then
9/10 — the run stops after two rounds, inside the bounds. -/
theorem orchestrate_iteration_count_bounds_witness :
    (ConsortiumOrchestrator.init cfgW).judging_method = "default" ∧
    1 ≤ (ConsortiumOrchestrator.init cfgW).minimum_iterations ∧
    (ConsortiumOrchestrator.init cfgW).minimum_iterations ≤
      (ConsortiumOrchestrator.init cfgW).max_iterations ∧
    ∃ res st',
      (ConsortiumOrchestrator.init cfgW).orchestrate "p" oW12 oneResp =
        some (res, st') ∧
      (ConsortiumOrchestrator.init cfgW).minimum_iterations ≤
        res.metadata_iteration_count ∧
      res.metadata_iteration_count ≤
        (ConsortiumOrchestrator.init cfgW).max_iterations ∧
      st'.iteration_history.length =
        (ConsortiumOrchestrator.init cfgW).iteration_history.length +
          res.metadata_iteration_count :=
  ⟨rfl, by decide, by decide,
    orchestrate_iteration_count_bounds (ConsortiumOrchestrator.init cfgW) "p"
      oW12 oneResp rfl (by decide) (by decide) (fun r h => rfl)⟩

/-- Claim C2: with judging method "default", if `k` is the first round
satisfying the stop rule (`confidence ≥ threshold` and `k ≥
minimum_iterations`) and round `k` is reachable (`k ≤ max_iterations`),
the loop stops at round `k`: that round's synthesis becomes the final
result and no further round is executed. -/
theorem orchestrate_stops_at_first_confident_round
    (self : ConsortiumOrchestrator) (prompt : String) (sO : SynthOracle)
    (rO : RespOracle) (k : Nat)
    (hjm : self.judging_method = "default")
    (hS : ∀ r h, (sO r h).isSome = true)
    (hk1 : 1 ≤ k) (hkmax : k ≤ self.max_iterations)
    (hkmin : self.minimum_iterations ≤ k)
    (hstop : ∀ h, self.confidence_threshold ≤ confAt sO k h)
    (hno : ∀ j h, 1 ≤ j → j < k →
      ¬(self.confidence_threshold ≤ confAt sO j h ∧
        self.minimum_iterations ≤ j)) :
    ∃ res st' hk fr, self.orchestrate prompt sO rO = some (res, st') ∧
      res.metadata_iteration_count = k ∧
      sO k hk = some fr ∧ res.synthesis = fr ∧
      st'.iteration_history = hk ++ [⟨fr, assignIds (rO k)⟩] := by
  obtain ⟨hk', fr, hfr, heq⟩ := orchLoop_stop self.confidence_threshold
    self.minimum_iterations self.max_iterations sO rO hS k hkmax hkmin hstop hno
    (max self.max_iterations self.minimum_iterations) 0 self.iteration_history
    "" none [] (by omega) (by omega)
  unfold ConsortiumOrchestrator.orchestrate
  rw [if_neg (by simp [hjm])]
  dsimp only
  rw [heq]
  dsimp only
  exact ⟨_, _, hk', fr, rfl, rfl, hfr, rfl, rfl⟩

/-- Witness for C2: with threshold 4/5 and confidences 1/2 then 9/10,
the loop stops exactly at round 2 and round 2's synthesis is final. -/
theorem orchestrate_stops_at_first_confident_round_witness :
    (1 ≤ 2 ∧ 2 ≤ (ConsortiumOrchestrator.init cfgW).max_iterations ∧
      (ConsortiumOrchestrator.init cfgW).minimum_iterations ≤ 2) ∧
    ∃ res st' hk fr,
      (ConsortiumOrchestrator.init cfgW).orchestrate "p" oW12 oneResp =
        some (res, st') ∧
      res.metadata_iteration_count = 2 ∧
      oW12 2 hk = some fr ∧ res.synthesis = fr ∧
      st'.iteration_history = hk ++ [⟨fr, assignIds (oneResp 2)⟩] :=
  ⟨⟨by decide, by decide, by decide⟩,
    orchestrate_stops_at_first_confident_round (ConsortiumOrchestrator.init cfgW)
      "p" oW12 oneResp 2 rfl (fun r h => rfl) (by decide) (by decide) (by decide)
      (fun h => by change (4 : ℚ)/5 ≤ 9/10; decide)
      (fun j h h1 h2 => by
        have hj : j = 1 := by omega
        subst hj
        change ¬((4 : ℚ)/5 ≤ 1/2 ∧ 1 ≤ 1)
        decide)⟩

/-- Claim C3 (code bug): source line 216 sets `self.max_iterations = 1`
for judging methods other than "default" — the comment reads "For
non-iterative methods, run only once" — but the loop guard
`iteration_count < self.max_iterations or iteration_count <
self.minimum_iterations` (line 218) keeps iterating up to
`minimum_iterations`.  With judging method "pick-one" and
`minimum_iterations = 2` the full pick-one pipeline executes 2 rounds,
not 1. -/
theorem pick_one_min_iterations_runs_two_rounds :
    ((ConsortiumOrchestrator.init pickDemoCfg).orchestrate "q" pickDemoSynth
      oneResp).map (fun p => p.1.metadata_iteration_count) = some 2 := by
  decide

/-- Claim C4: when the judging method is "pick-one" or "rank" and the
method-specific parser raises (missing tag, no valid rank entries,
out-of-range id, or any other parse exception, all modelled as `.error`),
`_synthesize_responses` does not propagate the exception: it returns the
fallback dict whose synthesis is the raw arbiter text, whose confidence
is 0.0, whose analysis indicates parsing failed, and which carries the
raw text in `raw_arbiter_response`. -/
theorem synthesize_responses_parser_error_fallback
    (judging_method raw : String) (responses : List ModelResponse)
    (h : (judging_method = "pick-one" ∧
            ∃ e, parse_pick_one_response raw responses = .error e) ∨
         (judging_method = "rank" ∧
            ∃ e, parse_rank_response raw responses = .error e)) :
    synthesize_responses judging_method raw responses = parseFallback raw ∧
    (synthesize_responses judging_method raw responses).synthesis = raw ∧
    (synthesize_responses judging_method raw responses).confidence = 0 ∧
    (synthesize_responses judging_method raw responses).analysis =
      "Parsing failed - see raw response" ∧
    (synthesize_responses judging_method raw responses).raw_arbiter_response =
      raw := by
  have hmain : synthesize_responses judging_method raw responses =
      parseFallback raw := by
    rcases h with ⟨hm, e, he⟩ | ⟨hm, e, he⟩
    · subst hm
      unfold synthesize_responses
      dsimp only
      rw [if_pos rfl, he]
    · subst hm
      unfold synthesize_responses
      dsimp only
      rw [if_neg (by decide), if_pos rfl, he]
  exact ⟨hmain, by rw [hmain]; rfl, by rw [hmain]; rfl, by rw [hmain]; rfl,
    by rw [hmain]; rfl⟩

/-- Witness for C4: an arbiter text with no `<response_id>` tag makes the
pick-one parser raise, and `_synthesize_responses` converts that into the
raw-text fallback dict. -/
theorem synthesize_responses_parser_error_fallback_witness :
    ("pick-one" = "pick-one" ∧
      ∃ e, parse_pick_one_response "no structured tag here" [] = .error e) ∧
    synthesize_responses "pick-one" "no structured tag here" [] =
      parseFallback "no structured tag here" ∧
    (synthesize_responses "pick-one" "no structured tag here" []).synthesis =
      "no structured tag here" ∧
    (synthesize_responses "pick-one" "no structured tag here" []).confidence = 0 ∧
    (synthesize_responses "pick-one" "no structured tag here" []).analysis =
      "Parsing failed - see raw response" ∧
    (synthesize_responses "pick-one" "no structured tag here" []).raw_arbiter_response =
      "no structured tag here" :=
  have hh : "pick-one" = "pick-one" ∧
      ∃ e, parse_pick_one_response "no structured tag here" [] = .error e :=
    ⟨rfl, ⟨"Could not find a valid <response_id> tag.", by rfl⟩⟩
  ⟨hh, synthesize_responses_parser_error_fallback "pick-one"
    "no structured tag here" [] (Or.inl hh)⟩

/-- Claim C5: when the arbiter text carries a `<response_id>` tag naming
`k` (the id the tag scanner extracts) and the current round has a unique
response with id `k` carrying text `t`, pick-one parsing succeeds with
synthesis exactly `t`, confidence forced to 1.0, continuation-needed
forced to false, and the chosen id `k` recorded. -/
theorem parse_pick_one_success
    (text : String) (responses : List ModelResponse) (k : Nat)
    (r : ModelResponse) (t : String)
    (htag : searchTagNum "<response_id>".data "</response_id>".data text.data =
      some k)
    (hmem : r ∈ responses) (hid : r.id = k)
    (huniq : ∀ r' ∈ responses, r'.id = k → r' = r)
    (hresp : r.response = some t) :
    parse_pick_one_response text responses =
      .ok { synthesis := t, confidence := 1,
            analysis := "Arbiter selected response #" ++ toString k ++
              " from model " ++ sglq ++ r.model ++ sglq ++ ".",
            dissent := "", needs_iteration := false, refinement_areas := [],
            chosen_id := some k } := by
  unfold parse_pick_one_response
  rw [htag]
  dsimp only
  rw [find_eq_of_mem_uniq hmem hid huniq]
  dsimp only
  rw [hresp]

/-- Witness for C5: three workers with ids 1-3, arbiter names id 2; the
result is worker 2's text verbatim with confidence 1.0. -/
theorem parse_pick_one_success_witness :
    (searchTagNum "<response_id>".data "</response_id>".data
        "<response_id>2</response_id>".data = some 2) ∧
    parse_pick_one_response "<response_id>2</response_id>" [wr 1, wr 2, wr 3] =
      .ok { synthesis := "text-2", confidence := 1,
            analysis := "Arbiter selected response #" ++ toString 2 ++
              " from model " ++ sglq ++ (wr 2).model ++ sglq ++ ".",
            dissent := "", needs_iteration := false, refinement_areas := [],
            chosen_id := some 2 } :=
  ⟨by decide,
    parse_pick_one_success "<response_id>2</response_id>" [wr 1, wr 2, wr 3] 2
      (wr 2) "text-2" (by decide) (by decide) (by decide) (by decide)
      (by decide)⟩

/-- Claim C6: the confidence extractor returns 0.9 for
`"<confidence>0.9</confidence>"`, for the same tag with newlines and
surrounding whitespace inside it, and for `"confidence: 90%"` (tag pass
first, then the line-scan fallback, with values above 1 treated as
percentages). -/
theorem parse_confidence_value_whitespace_examples :
    parse_confidence_value "<confidence>0.9</confidence>" 0 = 9/10 ∧
    parse_confidence_value "<confidence>\n  0.9  \n</confidence>" 0 = 9/10 ∧
    parse_confidence_value "confidence: 90%" 0 = 9/10 := by
  refine ⟨by decide, by decide, by decide⟩

/-- Counterexample to claim C7 as stated: the extractor is *not* bounded
by 1 — `"<confidence>200</confidence>"` parses to 200, which the
percentage rule divides only once, returning 2.0 > 1. -/
theorem parse_confidence_value_above_one :
    parse_confidence_value "<confidence>200</confidence>" 0 = 2 ∧
    ¬(parse_confidence_value "<confidence>200</confidence>" 0 ≤ 1) := by
  refine ⟨by decide, by decide⟩

/-- Claim C7 (amended): with its default of 0.0 the confidence extractor
always returns a nonnegative value (the patterns admit no sign), but it
can exceed 1 when the parsed number exceeds 100. -/
theorem parse_confidence_value_nonneg (text : String) :
    0 ≤ parse_confidence_value text 0 :=
  parse_confidence_value_nonneg_aux text

/-- Counterexample to claim C8 as stated: a configuration with
`minimum_iterations = 3 > max_iterations = 1` passes the whole
`run_command` validation pipeline with no error, and `orchestrate` then
dispatches three full rounds — the configuration is silently accepted,
no error is surfaced before dispatch. -/
theorem min_gt_max_accepted_and_runs :
    run_command_config ["worker-a:2"] 1 "arb" (4/5) 1 3 none "default" =
      .ok c8Cfg ∧
    ((ConsortiumOrchestrator.init c8Cfg).orchestrate "p" oZero oneResp).map
      (fun p => p.1.metadata_iteration_count) = some 3 := by
  refine ⟨by rfl, by decide⟩

/-- Claim C8 (amended): no code path relates `minimum_iterations` to
`max_iterations`; every otherwise-valid configuration with
`minimum_iterations > max_iterations` is accepted without error, and the
orchestrator (default judging, synthesis available) then executes exactly
`minimum_iterations` rounds — the loop guard's `or iteration_count <
self.minimum_iterations` clause overrides the max bound. -/
theorem run_command_accepts_min_gt_max
    (maxIt minIt : Nat) (threshold : ℚ) (arb prompt : String)
    (sO : SynthOracle) (rO : RespOracle)
    (h0 : 0 ≤ threshold) (h1 : threshold ≤ 1) (hlt : maxIt < minIt)
    (hS : ∀ r h, (sO r h).isSome = true) :
    ∃ cfg res st',
      run_command_config ["worker-a:2"] 1 arb threshold maxIt minIt none
        "default" = .ok cfg ∧
      (ConsortiumOrchestrator.init cfg).orchestrate prompt sO rO =
        some (res, st') ∧
      res.metadata_iteration_count = minIt := by
  have hcfg : run_command_config ["worker-a:2"] 1 arb threshold maxIt minIt
      none "default" =
      .ok { models := [("worker-a", 2)], system_prompt := none,
            confidence_threshold := threshold, max_iterations := maxIt,
            minimum_iterations := minIt, arbiter := some arb,
            judging_method := "default" } := by
    unfold run_command_config
    dsimp only
    rw [if_neg (by decide)]
    have hpm : parse_models ["worker-a:2"] 1 = .ok [("worker-a", 2)] := by rfl
    rw [hpm]
    dsimp only
    rw [if_neg (not_lt.mpr h1), if_neg (not_lt.mpr h0)]
  obtain ⟨res, st', heq, hlo, hhi, _⟩ := orchestrate_bounds_aux
    (ConsortiumOrchestrator.init
      { models := [("worker-a", 2)], system_prompt := none,
        confidence_threshold := threshold, max_iterations := maxIt,
        minimum_iterations := minIt, arbiter := some arb,
        judging_method := "default" })
    prompt sO rO rfl (by dsimp only [ConsortiumOrchestrator.init]; omega) hS
  refine ⟨_, res, st', hcfg, heq, ?_⟩
  dsimp only [ConsortiumOrchestrator.init] at hlo hhi
  omega

/-- Witness for C8 (amended) at threshold 4/5, `max_iterations = 1`,
`minimum_iterations = 3`. -/
theorem run_command_accepts_min_gt_max_witness :
    ((0 : ℚ) ≤ 4/5 ∧ (4 : ℚ)/5 ≤ 1 ∧ 1 < 3) ∧
    ∃ cfg res st',
      run_command_config ["worker-a:2"] 1 "arb" (4/5) 1 3 none "default" =
        .ok cfg ∧
      (ConsortiumOrchestrator.init cfg).orchestrate "p" oZero oneResp =
        some (res, st') ∧
      res.metadata_iteration_count = 3 :=
  ⟨⟨by decide, by decide, by decide⟩,
    run_command_accepts_min_gt_max 1 3 (4/5) "arb" "p" oZero oneResp
      (by decide) (by decide) (by decide) (fun r h => rfl)⟩

/-- Claim C9 (code bug): the `model == 'test-model'` branch of
`_get_model_response` (source lines 304-306) builds a fake response with
content `'test response'` but contains no `return` statement, and no code
follows the `if/else`; the function falls off its end and returns `None`
instead of the canned worker-response record the spec describes. -/
theorem test_model_returns_none :
    get_model_response "test-model" 0 (fun _ => .success "unused") = none := rfl

/-- Counterexample to claim C10 as stated: on one orchestrator, a second
`orchestrate` invocation does not behave as if it were the first —
`self.iteration_history` is never cleared, so the second invocation
replays the first invocation's history into the arbiter prompt.  With an
arbiter oracle that reports the length of the history it is shown, the
first invocation's final synthesis is "0" but the second's is "1". -/
theorem orchestrate_second_invocation_differs :
    (((ConsortiumOrchestrator.init c10Cfg).orchestrate "q" histLenOracle
        oneResp).bind
      (fun p1 => (p1.2.orchestrate "q" histLenOracle oneResp).map
        (fun p2 => (p1.1.synthesis.synthesis, p2.1.synthesis.synthesis)))) =
      some ("0", "1") := by decide

/-- Claim C10 (amended): the round counter is a per-invocation local, but
the iteration-history list is orchestrator instance state that persists
across invocations: every successful `orchestrate` call returns an
orchestrator whose history extends the one it started with (it is never
re-initialised or discarded). -/
theorem orchestrate_history_persists
    (self : ConsortiumOrchestrator) (prompt : String) (sO : SynthOracle)
    (rO : RespOracle) (res : OrchestrateResult) (st' : ConsortiumOrchestrator)
    (h : self.orchestrate prompt sO rO = some (res, st')) :
    ∃ d, st'.iteration_history = self.iteration_history ++ d := by
  unfold ConsortiumOrchestrator.orchestrate at h
  by_cases hjm : self.judging_method ≠ "default"
  · rw [if_pos hjm] at h
    dsimp only at h
    split at h
    · cases h
    · obtain ⟨d, hd⟩ := orchLoop_hist_extends self.confidence_threshold
        self.minimum_iterations 1 sO rO (max 1 self.minimum_iterations) 0
        self.iteration_history "" none []
      injection h with h2
      cases h2
      exact ⟨d, hd⟩
  · rw [if_neg hjm] at h
    dsimp only at h
    split at h
    · cases h
    · obtain ⟨d, hd⟩ := orchLoop_hist_extends self.confidence_threshold
        self.minimum_iterations self.max_iterations sO rO
        (max self.max_iterations self.minimum_iterations) 0
        self.iteration_history "" none []
      injection h with h2
      cases h2
      exact ⟨d, hd⟩

/-- Witness for C10 (amended): the state left by a concrete first
invocation extends the empty initial history. -/
theorem orchestrate_history_persists_witness :
    ∃ d, c10St1.iteration_history =
      (ConsortiumOrchestrator.init c10Cfg).iteration_history ++ d :=
  orchestrate_history_persists (ConsortiumOrchestrator.init c10Cfg) "q"
    histLenOracle oneResp c10Res1 c10St1 (by decide)
